/-
Verification of discord-ext-slash (src/discord/ext/slash/__init__.py)
against its natural-language specification.

The Python source is shallowly embedded below: pure data classes become
Lean structures, dict-producing serializers become functions into record
types whose optional JSON keys are modelled with `Option`, and raising
code is modelled with `Except`.  Entities (users, members, channels,
roles, snapshot payloads) are modelled by opaque `Nat` handles since
none of the claims depend on their internals.
-/
import Mathlib

namespace Slash

/-! ### Choice and Option model (source lines 504-593)

`Choice.to_dict` returns the dict `\x7bname, value\x7d`; we model that dict
as the structure `ChoiceData`.  `Choice.from_data` applied to such a dict
reconstructs an equal `Choice`, so on dicts it is the identity. -/

structure ChoiceData where
  name : String
  value : String
deriving DecidableEq, Repr

/-- Embedding of the source class `Option` (an argument to a `Command`).
Named `SlashOption` only because `Option` collides with the Lean core type.
`name` is `none` until auto-set from the parameter name; `type` is stored
as a plain integer exactly as the wire schema carries it (enum values 1-8,
`STRING = 3`, `INTEGER = 4`, `BOOLEAN = 5`, `USER = 6`, `CHANNEL = 7`,
`ROLE = 8`). -/
structure SlashOption where
  name : Option String
  type : Int
  description : String
  required : Bool
  choices : Option (List ChoiceData)
deriving DecidableEq, Repr

/-- The dict produced by `Option.to_dict` (source lines 549-559): keys
`type`, `name`, `description` always present; `required` present only when
truthy; `choices` present only when the choices list is not `None`. -/
structure OptionDict where
  type : Int
  name : Option String
  description : String
  required : Option Bool
  choices : Option (List ChoiceData)
deriving DecidableEq, Repr

def SlashOption.to_dict (o : SlashOption) : OptionDict :=
  { type := o.type
    name := o.name
    description := o.description
    required := if o.required then some o.required else none
    choices := o.choices }

/-- Embedding of `Option.__init__` receiving exactly the keyword arguments
held in an `OptionDict` (source lines 532-542): `name` and `required` are
popped with defaults `None` / `False`, and `choices`, when present, is
mapped through `Choice.from_data` (the identity on choice dicts). -/
def SlashOption.ofDict (d : OptionDict) : SlashOption :=
  { name := d.name
    type := d.type
    description := d.description
    required := d.required.getD false
    choices := d.choices }

/-- Embedding of `Option.clone` (source lines 561-562):
`type(self)(**self.to_dict())`. -/
def SlashOption.clone (o : SlashOption) : SlashOption :=
  SlashOption.ofDict o.to_dict

/-! ### Remote reconciliation model (`SlashBot.sync_cmds`, source lines 987-1014)

A local top-level `Command` is reduced to the data its `to_dict` uses:
name, description and the ordered list of serialized options (for a
`Group`, the serialized child list plays the same role: `sync_cmds` only
ever compares the resulting dicts).  A remote definition, as returned by
the GET route, carries the same three keys plus the registered id. -/

structure LocalCmd where
  name : String
  description : String
  options : List OptionDict
deriving DecidableEq, Repr

/-- The dict produced by `Command.to_dict` (source lines 691-701): keys
`name` and `description` always present, `options` present only when the
command has at least one option (`if self.options:`); the `default` key is
behind an `and False` guard and never emitted. -/
structure CmdDict where
  name : String
  description : String
  options : Option (List OptionDict)
deriving DecidableEq, Repr

def LocalCmd.to_dict (c : LocalCmd) : CmdDict :=
  { name := c.name
    description := c.description
    options := if c.options.isEmpty then none else some c.options }

/-- A remote command definition from the registration snapshot: the keys
`sync_cmds` reads (`name`, `description`, `options`, `id`).  `options` is
`none` when the remote JSON object has no `options` key, matching the
`done[name].get(k, ...)` sentinel-default lookup. -/
structure RemoteCmd where
  id : Nat
  name : String
  description : String
  options : Option (List OptionDict)
deriving DecidableEq, Repr

/-- The name set of the local dict `todo` (keys of `guilds[guild_id]`). -/
def todoNames (todo : List LocalCmd) : Finset String :=
  (todo.map LocalCmd.name).toFinset

/-- The name set of the remote dict `done` (keys of the comprehension
`\x7bdata['name']: data for data in done\x7d`). -/
def doneNames (done : List RemoteCmd) : Finset String :=
  (done.map RemoteCmd.name).toFinset

/-- Source line 992: `to_delete = set(done.keys()) - set(todo.keys())`. -/
def toDeleteSet (todo : List LocalCmd) (done : List RemoteCmd) : Finset String :=
  doneNames done \ todoNames todo

/-- Source line 994: `to_update = set(done.keys()) & set(todo.keys())`
(the update-candidate set, before the up-to-date filtering). -/
def toUpdateSet (todo : List LocalCmd) (done : List RemoteCmd) : Finset String :=
  doneNames done ∩ todoNames todo

/-- Source line 996: `to_create = set(todo.keys()) - set(done.keys())`. -/
def toCreateSet (todo : List LocalCmd) (done : List RemoteCmd) : Finset String :=
  todoNames todo \ doneNames done

/-- Lookup in the local dict `todo` by command name (its keys are the
command names, set in `register_commands`). -/
def todoDict (todo : List LocalCmd) (n : String) : Option LocalCmd :=
  todo.find? (fun c => c.name == n)

/-- Lookup in the remote dict built by
`done = \x7bdata['name']: data for data in done\x7d`: a Python dict
comprehension keeps the last entry for a repeated key, hence the
`reverse`. -/
def doneDict (done : List RemoteCmd) (n : String) : Option RemoteCmd :=
  done.reverse.find? (fun r => r.name == n)

/-- Source lines 1002-1003: `up_to_date = all(done[name].get(k, ...) ==
cmd_dict.get(k, ...) for k in \x7b'name', 'description', 'options'\x7d)`.
Exact equality on the three keys, an absent key on both sides comparing
equal (both `get` calls return the `...` sentinel). -/
def upToDate (c : LocalCmd) (r : RemoteCmd) : Bool :=
  decide (r.name = c.to_dict.name ∧ r.description = c.to_dict.description ∧
    r.options = c.to_dict.options)

def upToDateAt (todo : List LocalCmd) (done : List RemoteCmd) (n : String) : Bool :=
  match todoDict todo n, doneDict done n with
  | some c, some r => upToDate c r
  | _, _ => false

/-- The PATCH payload queued for an out-of-date command: `cmd_dict` after
`cmd_dict.pop('name')` (source line 1008) — the `name` key is gone by
construction of this type. -/
structure PatchDict where
  description : String
  options : Option (List OptionDict)
deriving DecidableEq, Repr

/-- Embedding of `cmd_dict.pop('name')` on a serialized command. -/
def popName (d : CmdDict) : PatchDict :=
  { description := d.description, options := d.options }

/-- What `sync_cmds` does with one name in the update-candidate set
(source lines 1000-1011): either leave it alone and bind the remote id
into the local node, or queue one PATCH whose payload omits the name. -/
inductive UpdateOutcome
| noop (boundId : Nat)
| patch (payload : PatchDict) (id : Nat)
deriving DecidableEq, Repr

def updateOutcome (c : LocalCmd) (r : RemoteCmd) : UpdateOutcome :=
  if upToDate c r then .noop r.id
  else .patch (popName c.to_dict) r.id

/-- The set of names actually queued for PATCH in one scope: the
update-candidate names whose serialized form differs from the remote
definition. -/
def patchSet (todo : List LocalCmd) (done : List RemoteCmd) : Finset String :=
  (toUpdateSet todo done).filter (fun n => upToDateAt todo done n = false)

/-- The PATCH payload queued for a given name (source lines 1008-1011). -/
def patchPayloadAt (todo : List LocalCmd) (n : String) : Option PatchDict :=
  (todoDict todo n).map (fun c => popName c.to_dict)

/-- A remote definition exactly as a successful registration of `c` leaves
it on the platform: the serialized form of `c` under some registered
id. -/
def serializeRemote (i : Nat) (c : LocalCmd) : RemoteCmd :=
  { id := i
    name := c.to_dict.name
    description := c.to_dict.description
    options := c.to_dict.options }

/-- The remote snapshot after a previous sync registered every command of
`todo` unchanged (ids assigned by the platform, arbitrary here). -/
def remoteOf (ids : String → Nat) (todo : List LocalCmd) : List RemoteCmd :=
  todo.map (fun c => serializeRemote (ids c.name) c)

/-! ### Command construction model (`Command.__init__`, source lines 630-676)

Each parameter of the decorated callback contributes what its (evaluated)
annotation makes of it: an `Option` descriptor, a subclass of `Context`,
or anything else (including annotations that failed to evaluate, which the
source turns into `param.empty`). -/

inductive ParamAnn
| optAnn (o : SlashOption)
| ctxAnn
| invalid
deriving DecidableEq, Repr

structure ParamSig where
  name : String
  ann : ParamAnn
  hasDefault : Bool
deriving DecidableEq, Repr

/-- What `Command.__init__` records about the callback signature:
`_ctx_arg` and the `options` mapping (insertion ordered). -/
structure CommandData where
  ctxArg : String
  options : List (String × SlashOption)
deriving DecidableEq, Repr

/-- The parameter loop of `Command.__init__` (source lines 642-670):
a parameter whose annotation is neither an `Option` instance nor a
`Context` subclass and which has no default raises `TypeError`; a
`Context`-annotated parameter overwrites `_ctx_arg` (so the last one
wins); an `Option`-annotated parameter is cloned, forced `required` when
the parameter has no default, stored under the parameter name, and given
the parameter name as wire name if it has none. -/
def initLoop : List ParamSig → Option String → List (String × SlashOption) →
    Except String (Option String × List (String × SlashOption))
| [], ctxArg, opts => .ok (ctxArg, opts)
| p :: rest, ctxArg, opts =>
  match p.ann with
  | .invalid =>
      if p.hasDefault then initLoop rest ctxArg opts
      else .error ("cannot have a required argument with no valid annotation")
  | .ctxAnn => initLoop rest (some p.name) opts
  | .optAnn o =>
      let o1 := o.clone
      let o2 := { o1 with required := if p.hasDefault then o1.required else true }
      let o3 := { o2 with name := match o2.name with
                                  | none => some p.name
                                  | some s => some s }
      initLoop rest ctxArg (opts ++ [(p.name, o3)])

/-- Embedding of `Command.__init__` (source lines 630-676): an empty (or
missing, modelled as empty) description raises `ValueError`; then the
parameter loop runs; then `if self._ctx_arg is None: raise ValueError`. -/
def commandInit (description : String) (params : List ParamSig) :
    Except String CommandData :=
  if description.isEmpty then .error ("Please specify a description")
  else
    match initLoop params none [] with
    | .error e => .error e
    | .ok (none, _) => .error ("One argument must be type-hinted slash.Context")
    | .ok (some c, opts) => .ok { ctxArg := c, options := opts }

/-- Number of `Context`-annotated parameters of a callback signature. -/
def countCtx (params : List ParamSig) : Nat :=
  params.countP (fun p => decide (p.ann = ParamAnn.ctxAnn))

/-! ### Entity resolution model (`Context._try_get`, source lines 347-401)

Entities and snapshot payloads are opaque `Nat` handles.  `cache` models
the `get_method` result (`none` = the method returned `None`); `fetch`
models the awaited `fetch_method` (`none` = it raised `HTTPException`);
`resolvedMap` models `resolved[typename+'s']`, with the outer `none`
meaning the `resolved` argument itself was `None`.  An `AttributeError`
from `get_method` (e.g. a `None` guild) takes the same fallback path as
the `ValueError` branch and is subsumed by `cache = none` for the claims
handled here. -/

structure TryGetEnv where
  fq : Bool
  fng : Bool
  cache : Option Nat
  fetch : Option Nat
  resolvedMap : Option (Nat → Option Nat)
  id : Nat

inductive TryGetResult
| got (e : Nat)
| fetched (e : Nat)
| resolvedObj (s : Nat)
| fallback
deriving DecidableEq, Repr

/-- The outcome of one `_try_get` call together with which of the later
tiers were exercised: `fetchTried` records that `fetch_method` was
awaited, `snapTried` that the resolved-snapshot fragment was consulted
(`resolved[typename+'s'].get(...)` executed). -/
structure TryGetOut where
  result : TryGetResult
  fetchTried : Bool
  snapTried : Bool
deriving DecidableEq, Repr

/-- The tail of `_try_get` after the try-block falls through (source lines
390-401): return the bare default if there is nothing to resolve from,
otherwise build the partial entity via `resolve_method`. -/
def tryGetResolve (env : TryGetEnv) (ft : Bool) : TryGetOut :=
  match env.resolvedMap with
  | none => ⟨.fallback, ft, false⟩
  | some m =>
    match m env.id with
    | none => ⟨.fallback, ft, true⟩
    | some s => ⟨.resolvedObj s, ft, true⟩

/-- Embedding of `Context._try_get` (source lines 347-401).  The guard at
line 354 skips the whole get/fetch attempt when resolving is preferred
(`fq` false), a resolved fragment was passed and the id is in it.  Inside
the try-block: a `None` get result with `fng` set awaits the fetch (whose
`HTTPException` falls through); with `fng` unset the code raises
`ValueError` and falls through — note this branch also discards a
non-`None` get result; only `fng` set returns the got object. -/
def tryGet (env : TryGetEnv) : TryGetOut :=
  let inSnap : Bool :=
    match env.resolvedMap with
    | none => false
    | some m => (m env.id).isSome
  if env.fq || env.resolvedMap.isNone || !inSnap then
    match env.cache, env.fng with
    | some o, true => ⟨.got o, false, false⟩
    | some _, false => tryGetResolve env false
    | none, true =>
      match env.fetch with
      | some o => ⟨.fetched o, true, false⟩
      | none => tryGetResolve env true
    | none, false => tryGetResolve env false
  else
    tryGetResolve env false

/-! ### Option binding model (`Context._kwargs_from_options`, source lines 261-345)

Only the terminal branch (`'value' in opt`) of the loop is modelled: the
claims below are about the terminal option entries of the already
resolved command.  A raw event value is a JSON string, integer or
boolean. -/

inductive RawValue
| str (s : String)
| int (n : Int)
| bool (b : Bool)
deriving DecidableEq, Repr

/-- A terminal entry of the event's option list: `\x7bname, value\x7d`. -/
structure EventOpt where
  name : String
  value : RawValue
deriving DecidableEq, Repr

/-- The id `discord.Object(value)` extracts from a raw entity value
(`int(value)`); entity references in events are numeric snowflakes, so
non-numeric strings (where `int()` would raise) are out of scope. -/
def rawId : RawValue → Nat
| .str s => (s.toNat?).getD 0
| .int n => n.toNat
| .bool b => if b then 1 else 0

/-- The collaborators the binding loop hands to `_try_get`, per entity
kind, plus the two client policy flags. -/
structure BindEnv where
  resolveNotFetch : Bool
  fetchIfNotGet : Bool
  memberCache : Nat → Option Nat
  memberFetch : Nat → Option Nat
  channelCache : Nat → Option Nat
  channelFetch : Nat → Option Nat
  roleCache : Nat → Option Nat
  resolvedMembers : Nat → Option Nat
  resolvedUsers : Nat → Option Nat
  resolvedChannels : Nat → Option Nat
  resolvedRoles : Nat → Option Nat

/-- Outcome of the second, user-tier `_try_get` call of the USER branch
(source lines 298-300): that call passes `fq=False` with both methods
`None`, so if the id is in `resolved['users']` the resolve tier returns a
`discord.User`, and otherwise the try-block calls `None(default.id)`,
an uncaught `TypeError`. -/
inductive UserSecond
| resolvedUser (u : Nat)
| typeErr
deriving DecidableEq, Repr

def userSecondTry (env : BindEnv) (i : Nat) : UserSecond :=
  match env.resolvedUsers i with
  | some u => .resolvedUser u
  | none => .typeErr

/-- The value bound into `kwargs[opt['name']]`: a raw passthrough for
non-entity types, or the entity-resolution outcome for USER / CHANNEL /
ROLE typed options. -/
inductive BoundValue
| raw (v : RawValue)
| memberVal (r : TryGetOut)
| userVal (fst : TryGetOut) (snd : UserSecond)
| channelVal (r : TryGetOut)
| roleVal (r : TryGetOut)
deriving DecidableEq, Repr

/-- The USER branch (source lines 285-300): first a member-tier
`_try_get` with the default flags; only if that returned the bare
`discord.Object` default does the user-tier call run. -/
def bindUser (env : BindEnv) (i : Nat) : BoundValue :=
  let fst := tryGet
    { fq := !env.resolveNotFetch, fng := env.fetchIfNotGet,
      cache := env.memberCache i, fetch := env.memberFetch i,
      resolvedMap := some env.resolvedMembers, id := i }
  if fst.result = .fallback then .userVal fst (userSecondTry env i)
  else .memberVal fst

/-- Per-type dispatch on a terminal value (source lines 274-334): USER,
CHANNEL and ROLE go through `_try_get` (ROLE with `fng=False` and no
fetch method), every other type code — including integers outside the
enum, which the `except ValueError: pass` keeps as plain ints — leaves
the raw value untouched. -/
def bindValue (env : BindEnv) (o : SlashOption) (v : RawValue) : BoundValue :=
  if o.type = 6 then bindUser env (rawId v)
  else if o.type = 7 then
    .channelVal (tryGet
      { fq := !env.resolveNotFetch, fng := env.fetchIfNotGet,
        cache := env.channelCache (rawId v), fetch := env.channelFetch (rawId v),
        resolvedMap := some env.resolvedChannels, id := rawId v })
  else if o.type = 8 then
    .roleVal (tryGet
      { fq := !env.resolveNotFetch, fng := false,
        cache := env.roleCache (rawId v), fetch := none,
        resolvedMap := some env.resolvedRoles, id := rawId v })
  else .raw v

/-- The name-matching loop (source lines 267-273): find the first declared
option whose wire name equals the event entry's name; the loop's `else`
clause raises `CommandInvokeError` when none matches. -/
def lookupOption (opts : List (String × SlashOption)) (wire : String) :
    Option (String × SlashOption) :=
  opts.find? (fun kv => kv.2.name == some wire)

/-- Binding of one terminal entry: either the parameter-keyed bound value
(the entry's name is rewritten to the parameter key `k`), or the
`CommandInvokeError('No such option: ...')` carrying the unknown name. -/
def bindTerminal (env : BindEnv) (opts : List (String × SlashOption))
    (e : EventOpt) : Except String (String × BoundValue) :=
  match lookupOption opts e.name with
  | none => .error e.name
  | some (k, o) => .ok (k, bindValue env o e.value)

/-- The terminal-entry loop of `_kwargs_from_options`, accumulating
`kwargs`; the first unmatched entry aborts the whole binding with its
error. -/
def bindAll (env : BindEnv) (opts : List (String × SlashOption)) :
    List EventOpt → Except String (List (String × BoundValue))
| [] => .ok []
| e :: rest =>
  match bindTerminal env opts e with
  | .error n => .error n
  | .ok kv =>
    match bindAll env opts rest with
    | .error n => .error n
    | .ok kvs => .ok (kv :: kvs)

/-- What reaches the command callback for one event: either binding blew
up with a `CommandInvokeError` naming an unknown option (the callback is
never invoked — the exception propagates out of `Context.__init__`, so
`on_interaction_create` never reaches `ctx.command.invoke`), or the bound
kwargs are handed to invocation. -/
inductive DispatchOutcome
| invokeError (badOption : String)
| invoked (kwargs : List (String × BoundValue))
deriving DecidableEq, Repr

def dispatchEvent (env : BindEnv) (opts : List (String × SlashOption))
    (es : List EventOpt) : DispatchOutcome :=
  match bindAll env opts es with
  | .error n => .invokeError n
  | .ok kvs => .invoked kvs

/-! ### Guard chain model (`Command.can_run` / `Command.invoke` /
`Command.invoke_parents`, source lines 703-755)

A check function is opaque except for its identity (used by the `not in
cogs` dedup) and whether calling it returns the explicit `False`; both
are carried in `CheckFn`.  An ancestor node records its group check, its
cog's `cog_check` when the cog has one, and the identity of its group
callback (the parent-invocation hook). -/

structure CheckFn where
  cid : Nat
  passes : Bool
deriving DecidableEq, Repr

structure AncestorNode where
  check : CheckFn
  cogCheck : Option CheckFn
  hookId : Nat
deriving DecidableEq, Repr

/-- A command with its parent chain, listed exactly as the
`while parent is not None: ... parent = parent.parent` walk visits it:
direct parent (innermost group) first. -/
structure GuardedCmd where
  ancestors : List AncestorNode
  ownCheck : CheckFn
deriving DecidableEq, Repr

/-- The parent walk of `can_run` (source lines 723-734), accumulating the
`parents` and `cogs` lists: every ancestor appends its group check to
`parents`; an ancestor whose cog has a `cog_check` appends it to `cogs`
unless already present. -/
def collectChecks : List AncestorNode → List CheckFn → List CheckFn →
    List CheckFn × List CheckFn
| [], parents, cogs => (parents, cogs)
| a :: rest, parents, cogs =>
  collectChecks rest (parents ++ [a.check])
    (match a.cogCheck with
     | some c => if c ∈ cogs then cogs else cogs ++ [c]
     | none => cogs)

/-- The full ordered check list `can_run` evaluates (source lines
722-739): `parents.extend(cogs); parents.extend(ctx.client._checks);
parents.reverse(); parents.append(self._check)`. -/
def canRunChain (cmd : GuardedCmd) (globalChecks : List CheckFn) : List CheckFn :=
  let pc := collectChecks cmd.ancestors [] []
  (pc.1 ++ pc.2 ++ globalChecks).reverse ++ [cmd.ownCheck]

/-- The evaluation loop of `can_run` (source lines 739-742): checks are
awaited in list order and the loop returns `False` at the first check
whose result `is False`; the first component records the ids of the
checks actually evaluated. -/
def runChecks : List CheckFn → List Nat × Bool
| [] => ([], true)
| c :: rest =>
  if c.passes then
    let r := runChecks rest
    (c.cid :: r.1, r.2)
  else ([c.cid], false)

def canRun (cmd : GuardedCmd) (globalChecks : List CheckFn) : Bool :=
  (runChecks (canRunChain cmd globalChecks)).2

/-- The order in which `invoke_parents` (source lines 744-755) awaits the
ancestor group callbacks: the parent walk collects them innermost first
and then reverses. -/
def invokeParentsOrder (cmd : GuardedCmd) : List Nat :=
  (cmd.ancestors.map AncestorNode.hookId).reverse

inductive InvokeEvent
| checkEval (i : Nat)
| parentHook (i : Nat)
| body
deriving DecidableEq, Repr

inductive InvokeError
| checkFailure
deriving DecidableEq, Repr

/-- Embedding of `Command.invoke` (source lines 703-714) as the trace of
observable events it produces: `can_run` evaluates its chain; if it
returns `False`, `CheckFailure` is raised before `invoke_parents` or the
command body; otherwise the parent hooks run outermost first and then the
body. -/
def invoke (cmd : GuardedCmd) (globalChecks : List CheckFn) :
    List InvokeEvent × Option InvokeError :=
  let r := runChecks (canRunChain cmd globalChecks)
  if r.2 then
    (r.1.map .checkEval ++ (invokeParentsOrder cmd).map .parentHook ++ [.body],
     none)
  else
    (r.1.map .checkEval, some .checkFailure)

/-- Modelled from the spec, for comparison with `canRunChain` only: the
guard order the specification asserts — all ancestor Group-level checks
outermost group first, then the owning-cog-level checks, then the
process-wide global checks, then the command's own check last. -/
def specGuardOrder (cmd : GuardedCmd) (globalChecks : List CheckFn) :
    List CheckFn :=
  let pc := collectChecks cmd.ancestors [] []
  pc.1.reverse ++ pc.2 ++ globalChecks ++ [cmd.ownCheck]

/-! ### Operation application model (`SlashBot.process_command`, source
lines 1016-1026)

One computed reconciliation operation is issued as one independent task.
`hasCmd` records whether the operation's kwargs carry a `cmd` reference
(POST and PATCH entries do, DELETE entries do not); `response` is the
awaited HTTP result (`none` = `discord.HTTPException` raised). -/

structure OpCall where
  name : String
  hasCmd : Bool
  response : Option Nat
deriving DecidableEq, Repr

/-- What one `process_command` run does to its command's registered id:
`newId = some i` means `cmd.id = int(data['id'])` ran with `i`; `none`
means the id was left untouched.  `loggedError` records the
`logger.exception(...)` call of the except-branch. -/
structure OpResult where
  newId : Option Nat
  loggedError : Bool
deriving DecidableEq, Repr

/-- Embedding of `SlashBot.process_command`: the `HTTPException` from the
request is caught, logged and swallowed (the coroutine returns, so the
exception never propagates to any other task); on success the returned id
is written back when a `cmd` reference was passed. -/
def processCommand (op : OpCall) : OpResult :=
  match op.response with
  | none => ⟨none, true⟩
  | some d => ⟨if op.hasCmd then some d else none, false⟩

/-- The per-operation task spawning loop of `register_commands` (source
lines 974-985), flattened over the state dict: every operation is
processed, each independently of all the others. -/
def processAll : List OpCall → List OpResult
| [] => []
| op :: rest => processCommand op :: processAll rest

/-! ### Concrete instances used by counterexamples and witnesses -/

/-- The failing input for claim C2: default client flags
(`resolve_not_fetch=True` so `fq=False`, `fetch_if_not_get=False` so
`fng=False`), a cache hit (`get_method` returns object `42`), and an id
absent from the resolved snapshot fragment. -/
def cacheHitEnv : TryGetEnv :=
  { fq := false, fng := false, cache := some 42, fetch := none,
    resolvedMap := some (fun _ => none), id := 7 }

/-- A binding environment with every collaborator empty; the non-entity
passthrough never consults it. -/
def trivEnv : BindEnv :=
  { resolveNotFetch := true, fetchIfNotGet := false,
    memberCache := fun _ => none, memberFetch := fun _ => none,
    channelCache := fun _ => none, channelFetch := fun _ => none,
    roleCache := fun _ => none,
    resolvedMembers := fun _ => none, resolvedUsers := fun _ => none,
    resolvedChannels := fun _ => none, resolvedRoles := fun _ => none }

/-- The option of the spec's concrete scenario:
`\x7bname:"amount", type:INTEGER, required:true\x7d`. -/
def amountOpt : SlashOption :=
  { name := some "amount", type := 4, description := "amount to use",
    required := true, choices := none }

/-! ### Claim theorems -/

/-- C9: for every Option, cloning round-trips through the wire
serialization — the clone's serialized dictionary equals the
original's. -/
theorem C9_clone_round_trips_serialization :
    ∀ o : Slash.SlashOption, o.clone.to_dict = o.to_dict := by
  intro o
  cases o with
  | mk name type description required choices =>
    cases required <;>
      simp [SlashOption.clone, SlashOption.ofDict, SlashOption.to_dict]

/-- C2 (failing input): with both policy flags at their defaults and the
referenced id absent from the snapshot fragment, a cache hit (the get
method returns object `42`) is discarded — `_try_get` raises the internal
`ValueError`, consults the snapshot tier, and returns the bare
placeholder instead of the cached object. -/
theorem C2_cache_hit_discarded_at_default_flags :
    cacheHitEnv.cache = some 42 ∧
    tryGet cacheHitEnv = ⟨.fallback, false, true⟩ ∧
    tryGet cacheHitEnv ≠ ⟨.got 42, false, false⟩ := by
  refine ⟨rfl, rfl, ?_⟩
  intro h
  simp [tryGet, cacheHitEnv, tryGetResolve] at h

/-- C7: applying reconciliation operations is fire-and-forget per
operation — each operation's result depends only on that operation (so a
failure in one cannot abort or alter a sibling), a network failure is
logged and leaves the command's registered id unchanged, and a successful
operation carrying a `cmd` reference (a create in particular) writes the
returned id back into the local node. -/
theorem C7_operations_isolated :
    (∀ (ops : List Slash.OpCall) (i : Nat),
        (processAll ops)[i]? = (ops[i]?).map processCommand) ∧
    (∀ op : Slash.OpCall, op.response = none →
        processCommand op = ⟨none, true⟩) ∧
    (∀ (op : Slash.OpCall) (d : Nat), op.response = some d →
        op.hasCmd = true → processCommand op = ⟨some d, false⟩) := by
  refine ⟨?_, ?_, ?_⟩
  · intro ops
    induction ops with
    | nil => intro i; simp [processAll]
    | cons op rest ih =>
      intro i
      cases i with
      | zero => simp [processAll]
      | succ n => simpa [processAll] using ih n
  · intro op h
    simp [processCommand, h]
  · intro op d h h2
    simp [processCommand, h, h2]

/-- C7 witness: a failed operation at a concrete input leaves the id
unchanged and logs the error. -/
theorem C7_operations_isolated_witness :
    processCommand ⟨"cmd-a", true, none⟩ = ⟨none, true⟩ :=
  C7_operations_isolated.2.1 ⟨"cmd-a", true, none⟩ rfl

/-- C3: the reconciliation partition is exhaustive and disjoint — every
remote command name lands in exactly one of the update-candidate set and
the delete set, and every local command name lands in exactly one of the
update-candidate set and the create set. -/
theorem C3_partition_exhaustive_disjoint :
    ∀ (todo : List Slash.LocalCmd) (done : List Slash.RemoteCmd),
      (∀ n ∈ doneNames done,
        (n ∈ toUpdateSet todo done ∧ n ∉ toDeleteSet todo done) ∨
        (n ∉ toUpdateSet todo done ∧ n ∈ toDeleteSet todo done)) ∧
      (∀ n ∈ todoNames todo,
        (n ∈ toUpdateSet todo done ∧ n ∉ toCreateSet todo done) ∨
        (n ∉ toUpdateSet todo done ∧ n ∈ toCreateSet todo done)) := by
  intro todo done
  constructor
  · intro n hn
    by_cases h : n ∈ todoNames todo <;>
      simp [toUpdateSet, toDeleteSet, Finset.mem_inter, Finset.mem_sdiff,
        hn, h]
  · intro n hn
    by_cases h : n ∈ doneNames done <;>
      simp [toUpdateSet, toCreateSet, Finset.mem_inter, Finset.mem_sdiff,
        hn, h]

/-- C3 witness: at a concrete scope with local command `a` and remote
commands `a`, `b`, the remote-only name `b` lands in the delete set and
not in the update-candidate set. -/
theorem C3_partition_witness :
    ("b" ∈ toUpdateSet [⟨"a", "d", []⟩]
        [⟨1, "a", "d", none⟩, ⟨2, "b", "e", none⟩] ∧
     "b" ∉ toDeleteSet [⟨"a", "d", []⟩]
        [⟨1, "a", "d", none⟩, ⟨2, "b", "e", none⟩]) ∨
    ("b" ∉ toUpdateSet [⟨"a", "d", []⟩]
        [⟨1, "a", "d", none⟩, ⟨2, "b", "e", none⟩] ∧
     "b" ∈ toDeleteSet [⟨"a", "d", []⟩]
        [⟨1, "a", "d", none⟩, ⟨2, "b", "e", none⟩]) :=
  (C3_partition_exhaustive_disjoint
    [⟨"a", "d", []⟩] [⟨1, "a", "d", none⟩, ⟨2, "b", "e", none⟩]).1
    "b" (by decide)

/-- C8: a terminal option entry whose declared type is a non-entity type
(STRING = 3, INTEGER = 4 or BOOLEAN = 5) binds the raw event value
through to the callback argument unchanged; in particular the required
INTEGER option `amount` with input value `5` binds as the integer `5`. -/
theorem C8_non_entity_raw_passthrough :
    (∀ (env : Slash.BindEnv) (opts : List (String × Slash.SlashOption))
        (e : Slash.EventOpt) (k : String) (o : Slash.SlashOption),
        lookupOption opts e.name = some (k, o) →
        (o.type = 3 ∨ o.type = 4 ∨ o.type = 5) →
        bindTerminal env opts e = .ok (k, .raw e.value)) ∧
    bindTerminal trivEnv [("amount", amountOpt)] ⟨"amount", .int 5⟩ =
      .ok ("amount", .raw (.int 5)) := by
  constructor
  · intro env opts e k o hl ht
    have hv : bindValue env o e.value = .raw e.value := by
      rcases ht with h | h | h <;> simp [bindValue, h]
    simp [bindTerminal, hl, hv]
  · rfl

/-- C4: for a command name present both locally and remotely, an exactly
equal serialized form (name, description, options) yields no operation
and binds the remote id into the local node; any difference yields
exactly one update whose payload omits the name field.  Consequently a
description-only change produces exactly one update and zero creates and
deletes for that scope. -/
theorem C4_update_diff_correct :
    (∀ (c : Slash.LocalCmd) (r : Slash.RemoteCmd),
        (upToDate c r = true → updateOutcome c r = .noop r.id) ∧
        (upToDate c r = false →
          updateOutcome c r = .patch (popName c.to_dict) r.id)) ∧
    (∀ (c c2 : Slash.LocalCmd) (i : Nat),
        c2.name = c.name → c2.options = c.options →
        c2.description ≠ c.description →
        patchSet [c2] [serializeRemote i c] = {c2.name} ∧
        patchPayloadAt [c2] c2.name = some (popName c2.to_dict) ∧
        toCreateSet [c2] [serializeRemote i c] = ∅ ∧
        toDeleteSet [c2] [serializeRemote i c] = ∅) := by
  constructor
  · intro c r
    constructor <;> intro h <;> simp [updateOutcome, h]
  · intro c c2 i hn ho hd
    have hud : upToDateAt [c2] [serializeRemote i c] c2.name = false := by
      have hfind : todoDict [c2] c2.name = some c2 := by
        simp [todoDict, List.find?]
      have hfind2 : doneDict [serializeRemote i c] c2.name =
          some (serializeRemote i c) := by
        simp [doneDict, List.find?, serializeRemote, LocalCmd.to_dict, hn]
      rw [upToDateAt, hfind, hfind2]
      simp only [upToDate, serializeRemote, LocalCmd.to_dict,
        decide_eq_false_iff_not]
      rintro ⟨-, h2, -⟩
      exact hd h2.symm
    refine ⟨?_, ?_, ?_, ?_⟩
    · have hset : toUpdateSet [c2] [serializeRemote i c] = {c2.name} := by
        simp [toUpdateSet, doneNames, todoNames, serializeRemote,
          LocalCmd.to_dict, hn]
      rw [patchSet, hset, Finset.filter_singleton, if_pos hud]
    · simp [patchPayloadAt, todoDict, List.find?]
    · simp [toCreateSet, doneNames, todoNames, serializeRemote,
        LocalCmd.to_dict, hn]
    · simp [toDeleteSet, doneNames, todoNames, serializeRemote,
        LocalCmd.to_dict, hn]

/-- C4 witness: changing only the description of command `cmd` from `old`
to `new` queues exactly the one PATCH for `cmd`. -/
theorem C4_update_diff_correct_witness :
    patchSet [⟨"cmd", "new", []⟩]
      [serializeRemote 9 ⟨"cmd", "old", []⟩] = {"cmd"} :=
  (C4_update_diff_correct.2 ⟨"cmd", "old", []⟩ ⟨"cmd", "new", []⟩ 9
    rfl rfl (by decide)).1

/-- C6 counterexample: a callback with two `Context`-annotated parameters
(and a valid description) constructs successfully, so construction does
not require exactly one context slot. -/
theorem C6_two_context_params_accepted :
    (commandInit "desc" [⟨"a", .ctxAnn, false⟩, ⟨"b", .ctxAnn, false⟩]).isOk
      = true ∧
    countCtx [⟨"a", .ctxAnn, false⟩, ⟨"b", .ctxAnn, false⟩] = 2 ∧
    (2 : Nat) ≠ 1 := by
  exact ⟨rfl, rfl, by decide⟩

/-- The parameter loop never raises when every unannotated parameter has a
default, and the context slot it records is set exactly when the
accumulator already held one or some remaining parameter is
`Context`-annotated. -/
theorem initLoop_ok :
    ∀ (ps : List Slash.ParamSig) (a : Option String)
      (os : List (String × Slash.SlashOption)),
      (∀ p ∈ ps, p.ann = Slash.ParamAnn.invalid → p.hasDefault = true) →
      ∃ c os2, initLoop ps a os = .ok (c, os2) ∧
        (c.isSome = true ↔
          (a.isSome = true ∨ ∃ p ∈ ps, p.ann = Slash.ParamAnn.ctxAnn)) := by
  intro ps
  induction ps with
  | nil =>
    intro a os _
    exact ⟨a, os, rfl, by simp⟩
  | cons p rest ih =>
    intro a os hvalid
    have hrest : ∀ q ∈ rest, q.ann = Slash.ParamAnn.invalid →
        q.hasDefault = true :=
      fun q hq => hvalid q (List.mem_cons_of_mem p hq)
    cases hann : p.ann with
    | invalid =>
      have hd : p.hasDefault = true := hvalid p (List.mem_cons_self p rest) hann
      obtain ⟨c, os2, heq, hiff⟩ := ih a os hrest
      refine ⟨c, os2, by simp [initLoop, hann, hd, heq], ?_⟩
      rw [hiff]
      simp [hann]
    | ctxAnn =>
      obtain ⟨c, os2, heq, hiff⟩ := ih (some p.name) os hrest
      refine ⟨c, os2, by simp [initLoop, hann, heq], ?_⟩
      rw [hiff]
      simp [hann]
    | optAnn o =>
      simp only [initLoop, hann]
      obtain ⟨c, os2, heq, hiff⟩ := ih a _ hrest
      refine ⟨c, os2, heq, ?_⟩
      rw [hiff]
      simp [hann]

/-- C6 (amended): construction fails at build time with a definition
error when the callback has no `Context`-annotated parameter; it succeeds
whenever at least one is present (given a nonempty description and every
unannotated parameter having a default) — exactly-one is not enforced. -/
theorem C6_at_least_one_context_required :
    ∀ (description : String) (params : List Slash.ParamSig),
      description.isEmpty = false →
      (∀ p ∈ params, p.ann = Slash.ParamAnn.invalid → p.hasDefault = true) →
      ((commandInit description params).isOk = true ↔
        ∃ p ∈ params, p.ann = Slash.ParamAnn.ctxAnn) := by
  intro description params hdesc hvalid
  obtain ⟨c, os2, heq, hiff⟩ := initLoop_ok params none [] hvalid
  rw [commandInit, if_neg (by simp [hdesc]), heq]
  cases c with
  | none =>
    have hnex : ¬ ∃ p ∈ params, p.ann = Slash.ParamAnn.ctxAnn := by
      intro h
      have := hiff.mpr (Or.inr h)
      simp at this
    simp [Except.isOk, Except.toBool, hnex]
  | some s =>
    have hex : ∃ p ∈ params, p.ann = Slash.ParamAnn.ctxAnn := by
      have h := hiff.mp (by simp)
      simpa using h
    simp [Except.isOk, Except.toBool, hex]

/-- C6 witness: a callback with one `Context` parameter and a description
constructs successfully. -/
theorem C6_at_least_one_context_required_witness :
    (commandInit "desc" [⟨"ctx", .ctxAnn, false⟩]).isOk = true :=
  (C6_at_least_one_context_required "desc" [⟨"ctx", .ctxAnn, false⟩]
    (by decide) (by decide)).mpr ⟨⟨"ctx", .ctxAnn, false⟩, by decide⟩

/-- C8 witness: the concrete INTEGER scenario, obtained by applying the
general passthrough statement at the `amount` option with input `5`. -/
theorem C8_non_entity_raw_passthrough_witness :
    bindTerminal trivEnv [("amount", amountOpt)] ⟨"amount", .int 5⟩ =
      .ok ("amount", .raw (.int 5)) :=
  C8_non_entity_raw_passthrough.1 trivEnv [("amount", amountOpt)]
    ⟨"amount", .int 5⟩ "amount" amountOpt (by decide) (Or.inr (Or.inl rfl))

/-- C10: when some terminal entry of the event names no declared option
of the resolved command (neither by wire name nor by parameter name),
binding aborts with the invocation error naming an unknown option of that
event, and the command callback is never invoked for the event. -/
theorem C10_unknown_option_aborts :
    ∀ (env : Slash.BindEnv) (opts : List (String × Slash.SlashOption))
      (es : List Slash.EventOpt),
      (∃ e ∈ es, (∀ kv ∈ opts, kv.2.name ≠ some e.name) ∧
        (∀ kv ∈ opts, kv.1 ≠ e.name)) →
      ∃ bad, (∃ e ∈ es, e.name = bad ∧
          ∀ kv ∈ opts, kv.2.name ≠ some bad) ∧
        bindAll env opts es = .error bad ∧
        dispatchEvent env opts es = .invokeError bad ∧
        ∀ kws, dispatchEvent env opts es ≠ .invoked kws := by
  intro env opts es
  induction es with
  | nil =>
    rintro ⟨e, he, -⟩
    cases he
  | cons e0 rest ih =>
    rintro ⟨e, he, hwire, hparam⟩
    cases hfind : lookupOption opts e0.name with
    | none =>
      have hnone : ∀ kv ∈ opts, kv.2.name ≠ some e0.name := by
        intro kv hkv h
        have := List.find?_eq_none.mp hfind kv hkv
        simp [h] at this
      have hbind : bindAll env opts (e0 :: rest) = .error e0.name := by
        simp [bindAll, bindTerminal, hfind]
      refine ⟨e0.name, ⟨e0, List.mem_cons_self e0 rest, rfl, hnone⟩,
        hbind, ?_, ?_⟩
      · simp [dispatchEvent, hbind]
      · intro kws
        simp [dispatchEvent, hbind]
    | some kv0 =>
      have he' : e ∈ rest := by
        rcases List.mem_cons.mp he with rfl | h
        · exact absurd (by simpa using List.find?_some hfind)
            (hwire kv0 (List.mem_of_find?_eq_some hfind))
        · exact h
      obtain ⟨bad, ⟨e2, he2, hname, hbad⟩, hbind, -, -⟩ :=
        ih ⟨e, he', hwire, hparam⟩
      have hbind2 : bindAll env opts (e0 :: rest) = .error bad := by
        simp [bindAll, bindTerminal, hfind, hbind]
      refine ⟨bad, ⟨e2, List.mem_cons_of_mem e0 he2, hname, hbad⟩,
        hbind2, ?_, ?_⟩
      · simp [dispatchEvent, hbind2]
      · intro kws
        simp [dispatchEvent, hbind2]

/-- C10 witness: an event entry named `bogus` against a command whose only
option is `amount` aborts with an invocation error and the callback is
never invoked. -/
theorem C10_unknown_option_aborts_witness :
    ∃ bad, (∃ e ∈ [Slash.EventOpt.mk "bogus" (.int 1)], e.name = bad ∧
        ∀ kv ∈ [("amount", amountOpt)], kv.2.name ≠ some bad) ∧
      bindAll trivEnv [("amount", amountOpt)]
        [Slash.EventOpt.mk "bogus" (.int 1)] = .error bad ∧
      dispatchEvent trivEnv [("amount", amountOpt)]
        [Slash.EventOpt.mk "bogus" (.int 1)] = .invokeError bad ∧
      ∀ kws, dispatchEvent trivEnv [("amount", amountOpt)]
        [Slash.EventOpt.mk "bogus" (.int 1)] ≠ .invoked kws :=
  C10_unknown_option_aborts trivEnv [("amount", amountOpt)]
    [Slash.EventOpt.mk "bogus" (.int 1)]
    ⟨⟨"bogus", .int 1⟩, by decide⟩

/-- In a list whose keys are distinct, `find?` by the key of a member
returns that member. -/
theorem find?_key_self {α : Type} (key : α → String) :
    ∀ (l : List α) (c : α), (l.map key).Nodup → c ∈ l →
      l.find? (fun x => key x == key c) = some c := by
  intro l
  induction l with
  | nil =>
    intro c _ hc
    cases hc
  | cons a t ih =>
    intro c hnd hc
    have hnd2 : (key a ∉ t.map key) ∧ (t.map key).Nodup := by
      rw [List.map_cons] at hnd
      exact List.nodup_cons.mp hnd
    rcases List.mem_cons.mp hc with rfl | hct
    · simp [List.find?]
    · have hne : (key a == key c) = false := by
        simp only [beq_eq_false_iff_ne, ne_eq]
        intro h
        exact hnd2.1 (h ▸ List.mem_map_of_mem key hct)
      rw [List.find?]
      rw [hne]
      exact ih c hnd2.2 hct

/-- Local dict lookup finds a member command by its own name when the
local names are distinct. -/
theorem todoDict_self (todo : List Slash.LocalCmd) (c : Slash.LocalCmd)
    (h : (todo.map Slash.LocalCmd.name).Nodup) (hc : c ∈ todo) :
    todoDict todo c.name = some c :=
  find?_key_self Slash.LocalCmd.name todo c h hc

/-- Remote dict lookup over the serialization of an unchanged local tree
finds exactly the serialization of the command with that name. -/
theorem doneDict_remoteOf (ids : String → Nat) (todo : List Slash.LocalCmd)
    (c : Slash.LocalCmd) (h : (todo.map Slash.LocalCmd.name).Nodup)
    (hc : c ∈ todo) :
    doneDict (remoteOf ids todo) c.name =
      some (serializeRemote (ids c.name) c) := by
  have hmap : (remoteOf ids todo).reverse.map Slash.RemoteCmd.name =
      (todo.map Slash.LocalCmd.name).reverse := by
    simp [remoteOf, serializeRemote, LocalCmd.to_dict, List.map_reverse,
      List.map_map]
  have hnd : ((remoteOf ids todo).reverse.map Slash.RemoteCmd.name).Nodup := by
    rw [hmap]
    exact List.nodup_reverse.mpr h
  have hmem : serializeRemote (ids c.name) c ∈ (remoteOf ids todo).reverse := by
    rw [List.mem_reverse]
    exact List.mem_map_of_mem _ hc
  exact find?_key_self Slash.RemoteCmd.name _ _ hnd hmem

/-- C5: reconciliation is idempotent — when the remote snapshot is
exactly the serialization of the unchanged local tree (as a previous sync
leaves it), a second sync computes zero updates, zero creates and zero
deletes. -/
theorem C5_sync_idempotent :
    ∀ (todo : List Slash.LocalCmd) (ids : String → Nat),
      (todo.map Slash.LocalCmd.name).Nodup →
      patchSet todo (remoteOf ids todo) = ∅ ∧
      toCreateSet todo (remoteOf ids todo) = ∅ ∧
      toDeleteSet todo (remoteOf ids todo) = ∅ := by
  intro todo ids h
  have hnames : doneNames (remoteOf ids todo) = todoNames todo := by
    simp [doneNames, todoNames, remoteOf, serializeRemote,
      LocalCmd.to_dict, List.map_map]
    rfl
  refine ⟨?_, ?_, ?_⟩
  · rw [Finset.eq_empty_iff_forall_not_mem]
    intro n hn
    rw [patchSet, Finset.mem_filter] at hn
    obtain ⟨hup, hfalse⟩ := hn
    have hmem : n ∈ todoNames todo := by
      rw [toUpdateSet] at hup
      exact Finset.mem_of_mem_inter_right hup
    obtain ⟨c, hc, rfl⟩ := List.mem_map.mp (List.mem_toFinset.mp hmem)
    have htrue : upToDateAt todo (remoteOf ids todo) c.name = true := by
      rw [upToDateAt, todoDict_self todo c h hc, doneDict_remoteOf ids todo c h hc]
      simp [upToDate, serializeRemote]
    rw [htrue] at hfalse
    cases hfalse
  · rw [toCreateSet, hnames, sdiff_self]
    rfl
  · rw [toDeleteSet, hnames, sdiff_self]
    rfl

/-- C5 witness: a concrete two-command tree synced against its own
serialization queues no PATCH. -/
theorem C5_sync_idempotent_witness :
    patchSet [⟨"a", "d", []⟩, ⟨"b", "e", []⟩]
      (remoteOf (fun _ => 5) [⟨"a", "d", []⟩, ⟨"b", "e", []⟩]) = ∅ :=
  (C5_sync_idempotent [⟨"a", "d", []⟩, ⟨"b", "e", []⟩] (fun _ => 5)
    (by decide)).1

/-- The `parents` list of the `can_run` walk is the ancestor group checks
in walk order (innermost first), appended to the accumulator. -/
theorem collectChecks_fst :
    ∀ (l : List Slash.AncestorNode) (p q : List Slash.CheckFn),
      (collectChecks l p q).1 = p ++ l.map Slash.AncestorNode.check := by
  intro l
  induction l with
  | nil =>
    intro p q
    simp [collectChecks]
  | cons a t ih =>
    intro p q
    simp [collectChecks, ih]

/-- The check loop of `can_run` stops at the first failing check: with
every check before it passing, exactly the leading checks up to and
including the failing one are evaluated and the loop returns `False`. -/
theorem runChecks_append_fail :
    ∀ (pre : List Slash.CheckFn) (c : Slash.CheckFn)
      (post : List Slash.CheckFn),
      (∀ x ∈ pre, x.passes = true) → c.passes = false →
      runChecks (pre ++ c :: post) =
        (pre.map Slash.CheckFn.cid ++ [c.cid], false) := by
  intro pre
  induction pre with
  | nil =>
    intro c post _ hc
    simp [runChecks, hc]
  | cons a t ih =>
    intro c post hall hc
    have ha : a.passes = true := hall a (List.mem_cons_self a t)
    have ht := ih c post (fun x hx => hall x (List.mem_cons_of_mem a hx)) hc
    simp [runChecks, ha, ht]

def exAncestor : Slash.AncestorNode := ⟨⟨1, true⟩, none, 10⟩

def exCmd : Slash.GuardedCmd := ⟨[exAncestor], ⟨3, true⟩⟩

def exGlobals : List Slash.CheckFn := [⟨2, true⟩]

def exFailCmd : Slash.GuardedCmd := ⟨[⟨⟨1, false⟩, none, 10⟩], ⟨3, true⟩⟩

/-- C1 counterexample: for a command under one ancestor group (check id
1) with one process-wide global check (id 2) and its own check (id 3),
`can_run` evaluates the chain in the order global, group, own —
`[2, 1, 3]` — not the claimed group, global, own order `[1, 2, 3]`. -/
theorem C1_order_counterexample :
    canRunChain exCmd exGlobals ≠ specGuardOrder exCmd exGlobals ∧
    (canRunChain exCmd exGlobals).map Slash.CheckFn.cid = [2, 1, 3] ∧
    (specGuardOrder exCmd exGlobals).map Slash.CheckFn.cid = [1, 2, 3] := by
  decide

/-- C1 (amended): the guard chain evaluated before the command body is
ordered process-wide global checks first (in reverse registration order),
then ancestor cog-level checks, then ancestor Group-level checks
outermost group first, then the command's own check last; evaluation is
strictly in this order, short-circuits on the first check returning an
explicit false, and such a failure aborts invocation with a check-failure
error before the command body or any parent-invocation hook runs. -/
theorem C1_guard_chain_order :
    (∀ (cmd : Slash.GuardedCmd) (g : List Slash.CheckFn),
        canRunChain cmd g =
          g.reverse ++ (collectChecks cmd.ancestors [] []).2.reverse ++
            (cmd.ancestors.map Slash.AncestorNode.check).reverse ++
            [cmd.ownCheck]) ∧
    (∀ (cmd : Slash.GuardedCmd) (g pre post : List Slash.CheckFn)
        (c : Slash.CheckFn),
        canRunChain cmd g = pre ++ c :: post →
        (∀ x ∈ pre, x.passes = true) → c.passes = false →
        runChecks (canRunChain cmd g) =
          (pre.map Slash.CheckFn.cid ++ [c.cid], false) ∧
        canRun cmd g = false) ∧
    (∀ (cmd : Slash.GuardedCmd) (g : List Slash.CheckFn),
        canRun cmd g = false →
        (invoke cmd g).2 = some Slash.InvokeError.checkFailure ∧
        ∀ e ∈ (invoke cmd g).1,
          (∀ i, e ≠ Slash.InvokeEvent.parentHook i) ∧
          e ≠ Slash.InvokeEvent.body) := by
  refine ⟨?_, ?_, ?_⟩
  · intro cmd g
    rw [canRunChain]
    rw [collectChecks_fst]
    simp [List.reverse_append, List.append_assoc]
  · intro cmd g pre post c hchain hall hc
    have hrun := runChecks_append_fail pre c post hall hc
    rw [hchain, hrun]
    exact ⟨rfl, by rw [canRun, hchain, hrun]⟩
  · intro cmd g hfail
    rw [canRun] at hfail
    have h1 : (invoke cmd g).1 =
        (runChecks (canRunChain cmd g)).1.map Slash.InvokeEvent.checkEval := by
      simp [invoke, hfail]
    have h2 : (invoke cmd g).2 = some Slash.InvokeError.checkFailure := by
      simp [invoke, hfail]
    refine ⟨h2, ?_⟩
    intro e he
    rw [h1] at he
    obtain ⟨i, hi, heq⟩ := List.mem_map.mp he
    subst heq
    constructor
    · intro j h
      cases h
    · intro h
      cases h

/-- C1 witness: at the concrete command whose single ancestor group check
fails, invocation aborts with the check-failure error. -/
theorem C1_guard_chain_order_witness :
    (invoke exFailCmd exGlobals).2 = some Slash.InvokeError.checkFailure :=
  (C1_guard_chain_order.2.2 exFailCmd exGlobals (by decide)).1

end Slash
